import Mathlib

/-!
Verification development for the code-quality orchestration core of the
recipes-convertor repository (src/scripts/lib and src/scripts/tasks).

The Python modules are shallowly embedded: the subprocess layer
(subprocess.run) and the filesystem (Path.exists, Path.is_file,
Path.is_dir, Path.suffix, Path.absolute) are modelled as a deterministic
oracle `World`; exceptions are modelled with `Except`; each embedded
operation additionally returns the ordered list of commands it handed to
the subprocess layer, so that statements about the number of spawned
processes can be made.
-/

namespace RecipesAudit

/-- A command as passed to subprocess.run: either a single shell string
(use_shell = True, the list is joined with spaces) or an argv vector. -/
inductive Cmd
| shellStr (s : String)
| argv (l : List String)
deriving DecidableEq, Repr

/-- Observable behaviour of one completed child process: its exit code and
its decoded standard output / standard error (none models both an empty
capture and an uncaptured stream, matching the falsiness test in
CommandResult.from_subprocess_result). -/
structure SpawnOutcome where
  returncode : Int
  stdoutText : Option String
  stderrText : Option String
deriving DecidableEq, Repr

/-- Result of asking the operating system to run a command: either the
process ran to completion, or it could not be started at all (OSError:
executable not found, permission denied, ...). -/
inductive SpawnResult
| completed (o : SpawnOutcome)
| failure (msg : String)
deriving DecidableEq, Repr

/-- The deterministic environment of one orchestration run: the subprocess
layer and the filesystem predicates used by the Python code. -/
structure World where
  spawn : Cmd → SpawnResult
  pathExists : String → Bool
  isFile : String → Bool
  isDir : String → Bool
  pathSuffix : String → String
  absolute : String → String

/-- Embedding of scripts.lib.audit.AuditorError: the stored message and the
stored exit code.  Mirrors __init__: a truthy exit code is prepended to the
message. -/
structure AuditorError where
  given_message : String
  exit_code : Option Int
deriving DecidableEq, Repr

/-- AuditorError.__init__ (scripts/lib/audit/__init__.py): decorates the
message with the exit code when the exit code is truthy (present and
non-zero). -/
def mkAuditorError (msg : String) (code : Option Int) : AuditorError :=
  match code with
  | some c =>
    if c ≠ 0 then
      { given_message := "[Exit Code: " ++ toString c ++ "] " ++ msg, exit_code := some c }
    else
      { given_message := msg, exit_code := some c }
  | none => { given_message := msg, exit_code := none }

/-- Embedding of scripts.lib.audit.format.FormatterError, identical in shape
to AuditorError. -/
structure FormatterError where
  given_message : String
  exit_code : Option Int
deriving DecidableEq, Repr

/-- FormatterError.__init__ (scripts/lib/audit/format/__init__.py). -/
def mkFormatterError (msg : String) (code : Option Int) : FormatterError :=
  match code with
  | some c =>
    if c ≠ 0 then
      { given_message := "[Exit Code: " ++ toString c ++ "] " ++ msg, exit_code := some c }
    else
      { given_message := msg, exit_code := some c }
  | none => { given_message := msg, exit_code := none }

/-- The Python exceptions that can escape the embedded code paths.
calledProcess models subprocess.CalledProcessError (raised by
subprocess.run when check=True and the exit code is non-zero); osErr models
an OSError raised when the process could not be spawned (it is not caught
anywhere in the embedded code, so it propagates). -/
inductive PyError
| calledProcess (returncode : Int)
| osErr (msg : String)
| auditor (e : AuditorError)
| formatter (e : FormatterError)
deriving DecidableEq, Repr

/-- The combined_output dictionary of CommandResult and of the file result
classes: captured stdout and stderr. -/
structure OutputDict where
  stdout : Option String
  stderr : Option String
deriving DecidableEq, Repr

/-- Embedding of scripts.lib.command.CommandResult.  The command_pre /
command_suffix fields are the command_prefix / command_suffix attributes of
the source (the first is renamed). -/
structure CommandResult where
  original_command : List String
  constructed_command : Cmd
  command_pre : Option (List String)
  command_suffix : Option (List String)
  executed_command : Cmd
  used_shell : Bool
  captured_output : Bool
  returncode : Option Int
  error : Option String
  stdoutText : Option String
  stderrText : Option String
deriving DecidableEq, Repr

/-- CommandResult.combined_output. -/
def CommandResult.combined_output (r : CommandResult) : OutputDict :=
  { stdout := r.stdoutText, stderr := r.stderrText }

/-- Command._execute, construction step: constructed_command is
(command_prefix or []) + self.command + (command_suffix or []); when
use_shell is set the token list is joined with single spaces into one shell
string. -/
def constructCommand (base : List String) (pfx sfx : Option (List String))
    (use_shell : Bool) : Cmd :=
  let l := (pfx.getD []) ++ base ++ (sfx.getD [])
  if use_shell then Cmd.shellStr (String.intercalate " " l) else Cmd.argv l

/-- CommandResult.from_subprocess_result: builds the result record from a
completed process; error is always None here, stdout/stderr are the decoded
captures (None when not captured or empty). -/
def CommandResult.from_subprocess_result (o : SpawnOutcome) (original : List String)
    (constructed : Cmd) (pfx sfx : Option (List String))
    (used_shell captured : Bool) : CommandResult :=
  { original_command := original,
    constructed_command := constructed,
    command_pre := pfx,
    command_suffix := sfx,
    executed_command := constructed,
    used_shell := used_shell,
    captured_output := captured,
    returncode := some o.returncode,
    error := none,
    stdoutText := if captured then o.stdoutText else none,
    stderrText := if captured then o.stderrText else none }

/-- Command.run / Command._execute (scripts/lib/command.py): construct the
command, hand it to subprocess.run, and either return a CommandResult built
by from_subprocess_result or let the exception propagate.  With check=True
a non-zero exit raises subprocess.CalledProcessError (logged and
re-raised); a spawn failure raises OSError, which no handler catches.  The
second component is the list of commands handed to the subprocess layer
(exactly one per call). -/
def Command.run (w : World) (base : List String) (check capture_output use_shell : Bool)
    (pfx sfx : Option (List String)) : Except PyError CommandResult × List Cmd :=
  match w.spawn (constructCommand base pfx sfx use_shell) with
  | SpawnResult.failure msg =>
    (Except.error (PyError.osErr msg), [constructCommand base pfx sfx use_shell])
  | SpawnResult.completed o =>
    if check && o.returncode ≠ 0 then
      (Except.error (PyError.calledProcess o.returncode),
        [constructCommand base pfx sfx use_shell])
    else
      (Except.ok (CommandResult.from_subprocess_result o base
          (constructCommand base pfx sfx use_shell) pfx sfx use_shell capture_output),
        [constructCommand base pfx sfx use_shell])

/-- Path classification snapshot (PathType enum, identical in both the
audit and the format module). -/
inductive PathType
| file
| directory
deriving DecidableEq, Repr

/-- PathType.value. -/
def PathType.value : PathType → String
| PathType.file => "file"
| PathType.directory => "directory"

/-- Embedding of scripts.lib.audit.FileAuditResult.  auditorName models the
_auditor class reference by the name attribute of that class. -/
structure FileAuditResult where
  path : String
  path_type : PathType
  valid : Bool
  auditorName : String
  output : Option OutputDict
deriving DecidableEq, Repr

/-- FileAuditResult.__init__: the path classification is snapshotted from
the filesystem (FILE when is_file, DIRECTORY otherwise). -/
def mkFileAuditResult (w : World) (file_path : String) (auditorName : String)
    (valid : Bool) (output : Option OutputDict) : FileAuditResult :=
  { path := file_path,
    path_type := if w.isFile file_path then PathType.file else PathType.directory,
    valid := valid,
    auditorName := auditorName,
    output := output }

/-- Serialized form of FileAuditResult (FileAuditResult.serialize). -/
structure SerializedAudit where
  path : String
  path_type : String
  valid : Bool
  output : Option OutputDict
deriving DecidableEq, Repr

/-- FileAuditResult.serialize. -/
def FileAuditResult.serialize (r : FileAuditResult) : SerializedAudit :=
  { path := r.path, path_type := r.path_type.value, valid := r.valid, output := r.output }

/-- Embedding of scripts.lib.audit.format.FileFormatResult; formatted is
the tri-state changed flag. -/
structure FileFormatResult where
  path : String
  path_type : PathType
  valid : Bool
  formatterName : String
  formatted : Option Bool
  output : Option OutputDict
deriving DecidableEq, Repr

/-- FileFormatResult.__init__. -/
def mkFileFormatResult (w : World) (file_path : String) (formatterName : String)
    (valid : Bool) (formatted : Option Bool) (output : Option OutputDict) :
    FileFormatResult :=
  { path := file_path,
    path_type := if w.isFile file_path then PathType.file else PathType.directory,
    valid := valid,
    formatterName := formatterName,
    formatted := formatted,
    output := output }

/-- Serialized form of FileFormatResult (FileFormatResult.serialize). -/
structure SerializedFormat where
  path : String
  path_type : String
  valid : Bool
  formatted : Option Bool
  output : Option OutputDict
deriving DecidableEq, Repr

/-- FileFormatResult.serialize. -/
def FileFormatResult.serialize (r : FileFormatResult) : SerializedFormat :=
  { path := r.path, path_type := r.path_type.value, valid := r.valid,
    formatted := r.formatted, output := r.output }

/-- Containment of one character list in another as a contiguous run;
models the Python substring operator `in`. -/
def charsPre : List Char → List Char → Bool
| [], _ => true
| _ :: _, [] => false
| a :: as, b :: bs => a = b && charsPre as bs

/-- Substring test over char lists. -/
def charsSub (needle hay : List Char) : Bool :=
  match hay with
  | [] => needle.isEmpty
  | _ :: t => charsPre needle hay || charsSub needle t

/-- Python `needle in hay` on strings. -/
def pyStrIn (needle hay : String) : Bool := charsSub needle.toList hay.toList

/-- Python str.lower at its ASCII meaning, computed on the character list
so that it evaluates by definitional unfolding. -/
def strToLower (s : String) : String := String.mk (s.toList.map Char.toLower)

/-- FlakeEightAuditor.executable. -/
def flake8Executable : List String := ["flake8"]

/-- FlakeEightAuditor.is_supported_filetype: a directory is always
supported; a file is supported when "py" occurs in its lower-cased
extension. -/
def flake8IsSupportedFiletype (w : World) (file_path : String) : Bool :=
  if w.isDir file_path then true
  else pyStrIn "py" (strToLower (w.pathSuffix file_path))

/-- FlakeEightAuditor.audit (scripts/lib/audit/auditors/flake8.py): run the
linter with check=False, classify exit code 0 as valid, 1 as invalid, and
raise AuditorError with the exit code otherwise.  The returncode of a
successfully completed run is always present; the none branch mirrors the
catch-all case of the source match statement. -/
def FlakeEightAuditor.audit (w : World) (file_path : String)
    (pfx sfx : Option (List String)) : Except PyError FileAuditResult × List Cmd :=
  match Command.run w flake8Executable false true true pfx
      (some ([file_path] ++ (sfx.getD []))) with
  | (Except.error e, tr) => (Except.error e, tr)
  | (Except.ok result, tr) =>
    match result.returncode with
    | some c =>
      if c = 0 then
        (Except.ok (mkFileAuditResult w file_path "flake8" true
          (some result.combined_output)), tr)
      else if c = 1 then
        (Except.ok (mkFileAuditResult w file_path "flake8" false
          (some result.combined_output)), tr)
      else
        (Except.error (PyError.auditor
          (mkAuditorError ("Unknown error: " ++ toString c) (some c))), tr)
    | none =>
      (Except.error (PyError.auditor (mkAuditorError "Unknown error: None" none)), tr)

/-- BlackFormatter.executable. -/
def blackExecutable : String := "black"

/-- BlackFormatter.is_supported_filetype, identical rule to the flake8
auditor. -/
def blackIsSupportedFiletype (w : World) (file_path : String) : Bool :=
  if w.isDir file_path then true
  else pyStrIn "py" (strToLower (w.pathSuffix file_path))

/-- BlackFormatter.check (scripts/lib/audit/format/formatters/black.py):
run black --check with check=False and classify by the same exit-code
convention as the auditor; formatted is None for a pure check. -/
def BlackFormatter.check (w : World) (file_path : String)
    (pfx sfx : Option (List String)) : Except PyError FileFormatResult × List Cmd :=
  match Command.run w [blackExecutable, "--check"] false true true pfx
      (some ([file_path] ++ (sfx.getD []))) with
  | (Except.error e, tr) => (Except.error e, tr)
  | (Except.ok result, tr) =>
    match result.returncode with
    | some c =>
      if c = 0 then
        (Except.ok (mkFileFormatResult w file_path "black" true none
          (some result.combined_output)), tr)
      else if c = 1 then
        (Except.ok (mkFileFormatResult w file_path "black" false none
          (some result.combined_output)), tr)
      else
        (Except.error (PyError.formatter
          (mkFormatterError ("Unknown error: " ++ toString c) (some c))), tr)
    | none =>
      (Except.error (PyError.formatter (mkFormatterError "Unknown error: None" none)), tr)

/-- BlackFormatter.format: first run check; if the file is already valid
return immediately (valid=True, formatted=False, no output, no second
process); otherwise run the destructive command, raising FormatterError on
any non-zero exit and returning valid=True, formatted=True on exit 0. -/
def BlackFormatter.format (w : World) (file_path : String)
    (pfx sfx : Option (List String)) : Except PyError FileFormatResult × List Cmd :=
  match BlackFormatter.check w file_path pfx sfx with
  | (Except.error e, tr) => (Except.error e, tr)
  | (Except.ok check_result, tr) =>
    if !check_result.valid then
      match Command.run w [blackExecutable] false true true pfx
          (some ([file_path] ++ (sfx.getD []))) with
      | (Except.error e, tr2) => (Except.error e, tr ++ tr2)
      | (Except.ok result, tr2) =>
        if result.returncode ≠ some 0 then
          (Except.error (PyError.formatter
            (mkFormatterError ("Failed to format file: " ++ file_path)
              result.returncode)), tr ++ tr2)
        else
          (Except.ok (mkFileFormatResult w file_path "black" true (some true)
            (some result.combined_output)), tr ++ tr2)
    else
      (Except.ok (mkFileFormatResult w file_path "black" true (some false) none), tr)

/-- An auditor plugin, as seen by the orchestrator: the class attributes
and class methods accessed by scripts.lib.audit.Auditor. -/
structure AuditorClass where
  name : String
  is_supported_filetype : World → String → Bool
  audit : World → String → Option (List String) → Option (List String) →
    Except PyError FileAuditResult × List Cmd

/-- The one concrete auditor of the repository. -/
def flake8Class : AuditorClass :=
  { name := "flake8",
    is_supported_filetype := flake8IsSupportedFiletype,
    audit := FlakeEightAuditor.audit }

/-- A formatter plugin: the class attributes and class methods accessed by
scripts.lib.audit.format.Formatter. -/
structure FormatterClass where
  name : String
  is_supported_filetype : World → String → Bool
  check : World → String → Option (List String) → Option (List String) →
    Except PyError FileFormatResult × List Cmd
  format : World → String → Option (List String) → Option (List String) →
    Except PyError FileFormatResult × List Cmd

/-- The one concrete formatter of the repository. -/
def blackClass : FormatterClass :=
  { name := "black",
    is_supported_filetype := blackIsSupportedFiletype,
    check := BlackFormatter.check,
    format := BlackFormatter.format }

/-- FormatterOperation enum. -/
inductive FormatterOperation
| check
| format
deriving DecidableEq, Repr

/-- The targets argument of the perform operations before normalization:
a single path or a list of paths. -/
inductive PathsArg
| single (p : String)
| multiple (ps : List String)

/-- Target normalization step of perform_auditor_operation /
perform_formatter_operation: a single path becomes a one-element list (the
source also drops list elements that are neither str nor Path, which the
embedding renders vacuous by typing). -/
def resolveFilePaths : PathsArg → List String
| PathsArg.single p => [p]
| PathsArg.multiple ps => ps

/-- Auditor.perform_auditor_operation on the normalized target list: for
each target, abort fatally when it does not exist, skip it with a warning
when the applicability predicate rejects it, and otherwise yield the result
of the audit verb.  The generator is embedded as the list of yielded
results together with the error, if any, that terminated it; results after
a fatal target are never produced. -/
def perform_auditor_operation (w : World) (cls : AuditorClass)
    (file_paths : List String) (pfx sfx : Option (List String)) :
    List FileAuditResult × Option PyError :=
  match file_paths with
  | [] => ([], none)
  | file_path :: rest =>
    if !w.pathExists file_path then
      ([], some (PyError.auditor
        (mkAuditorError ("File does not exist: " ++ file_path) none)))
    else if !cls.is_supported_filetype w file_path then
      perform_auditor_operation w cls rest pfx sfx
    else
      match cls.audit w file_path pfx sfx with
      | (Except.error e, _) => ([], some e)
      | (Except.ok r, _) =>
        let t := perform_auditor_operation w cls rest pfx sfx
        (r :: t.1, t.2)

/-- Formatter.perform_formatter_operation: the formatter twin, dispatching
on the requested verb. -/
def perform_formatter_operation (w : World) (cls : FormatterClass)
    (operation : FormatterOperation) (file_paths : List String)
    (pfx sfx : Option (List String)) : List FileFormatResult × Option PyError :=
  match file_paths with
  | [] => ([], none)
  | file_path :: rest =>
    if !w.pathExists file_path then
      ([], some (PyError.formatter
        (mkFormatterError ("File does not exist: " ++ file_path) none)))
    else if !cls.is_supported_filetype w file_path then
      perform_formatter_operation w cls operation rest pfx sfx
    else
      match (match operation with
             | FormatterOperation.check => cls.check
             | FormatterOperation.format => cls.format) w file_path pfx sfx with
      | (Except.error e, _) => ([], some e)
      | (Except.ok r, _) =>
        let t := perform_formatter_operation w cls operation rest pfx sfx
        (r :: t.1, t.2)

/-- A candidate class encountered during plugin discovery: its __name__ and
its name class attribute when it has one (hasattr).  Names are modelled as
ASCII strings; the Python character predicates below are embedded at their
ASCII meaning. -/
structure CandidateClass where
  className : String
  name : Option String
deriving DecidableEq, Repr

/-- Python str.isalnum restricted to ASCII: non-empty and every character a
letter or a digit. -/
def pyIsAlnum (s : String) : Bool :=
  !s.isEmpty && s.toList.all (fun c => c.isAlphanum)

/-- Python str.islower restricted to ASCII: at least one cased character
and every cased character lower-case. -/
def pyIsLower (s : String) : Bool :=
  s.toList.any (fun c => c.isAlpha) && s.toList.all (fun c => !c.isAlpha || c.isLower)

/-- Python str.lower restricted to ASCII. -/
def pyLower (s : String) : String := strToLower s

/-- Association-list update with Python dict semantics: replace in place
when the key is present, append otherwise. -/
def updateAssoc {β : Type} : List (String × β) → String → β → List (String × β)
| [], k, v => [(k, v)]
| (k', v') :: rest, k, v =>
  if k' = k then (k, v) :: rest else (k', v') :: updateAssoc rest k v

/-- Association-list lookup. -/
def lookupAssoc {β : Type} : List (String × β) → String → Option β
| [], _ => none
| (k', v) :: rest, k => if k' = k then some v else lookupAssoc rest k

/-- Loop body of _discover_auditors (scripts/lib/audit/__init__.py) over
the flattened candidate iteration, with the registry built so far as the
accumulator: reject fatally a candidate that lacks a name, whose name
lower-cases to the reserved word all, or whose name fails isalnum/islower;
otherwise register it under its name.  An error result models the
exception escaping the module-level AVAILABLE_AUDITORS assignment, which
leaves no registry at all.  Error message quotes are elided. -/
def discoverAuditorsAux : List CandidateClass → List (String × CandidateClass) →
    Except PyError (List (String × CandidateClass))
| [], acc => Except.ok acc
| item :: rest, acc =>
  match item.name with
  | none => Except.error (PyError.auditor (mkAuditorError
      ("Auditor class " ++ item.className ++ " must define a name class attribute") none))
  | some nm =>
    if pyLower nm = "all" then
      Except.error (PyError.auditor (mkAuditorError
        ("Auditor class " ++ item.className ++
          " cannot use all as its name - this is a reserved keyword") none))
    else if !(pyIsAlnum nm) || !(pyIsLower nm) then
      Except.error (PyError.auditor (mkAuditorError
        ("Auditor class " ++ item.className ++
          " must have a name that contains only lowercase letters (a-z) and numbers (0-9)")
        none))
    else
      discoverAuditorsAux rest (updateAssoc acc nm item)

/-- The _discover_auditors entry point. -/
def discover_auditors (candidates : List CandidateClass) :
    Except PyError (List (String × CandidateClass)) :=
  discoverAuditorsAux candidates []

/-- Loop body of _discover_formatters, identical to the auditor variant up
to the error class. -/
def discoverFormattersAux : List CandidateClass → List (String × CandidateClass) →
    Except PyError (List (String × CandidateClass))
| [], acc => Except.ok acc
| item :: rest, acc =>
  match item.name with
  | none => Except.error (PyError.formatter (mkFormatterError
      ("Formatter class " ++ item.className ++ " must define a name class attribute") none))
  | some nm =>
    if pyLower nm = "all" then
      Except.error (PyError.formatter (mkFormatterError
        ("Formatter class " ++ item.className ++
          " cannot use all as its name - this is a reserved keyword") none))
    else if !(pyIsAlnum nm) || !(pyIsLower nm) then
      Except.error (PyError.formatter (mkFormatterError
        ("Formatter class " ++ item.className ++
          " must have a name that contains only lowercase letters (a-z) and numbers (0-9)")
        none))
    else
      discoverFormattersAux rest (updateAssoc acc nm item)

/-- The _discover_formatters entry point. -/
def discover_formatters (candidates : List CandidateClass) :
    Except PyError (List (String × CandidateClass)) :=
  discoverFormattersAux candidates []

/-- The plugin-name constraint as the specification words it: non-empty,
only lowercase ASCII letters and digits, and never the literal all.  This
definition follows the spec, for comparison with the source-derived
discovery checks. -/
def specPluginNameOk (nm : String) : Prop :=
  nm ≠ "" ∧ nm ≠ "all" ∧ ∀ c ∈ nm.toList, c.isLower = true ∨ c.isDigit = true

/-- A discovery candidate that violates the spec constraint: missing name,
reserved name, or disallowed characters. -/
def violatesNameConstraint (c : CandidateClass) : Prop :=
  c.name = none ∨ ∃ nm, c.name = some nm ∧ ¬ specPluginNameOk nm

/-- The nested report dictionary of the audit task: absolute path →
auditor name → serialized result. -/
abbrev AuditReport := List (String × List (String × SerializedAudit))

/-- The nested report dictionary of the format task. -/
abbrev FormatReport := List (String × List (String × SerializedFormat))

/-- One iteration of the result loop in scripts/tasks/audit.py main:
results[abs_path][auditor_name] = result.serialize(). -/
def recordAuditResult (w : World) (name : String) (r : FileAuditResult)
    (report : AuditReport) : AuditReport :=
  let abs := w.absolute r.path
  updateAssoc report abs (updateAssoc ((lookupAssoc report abs).getD []) name r.serialize)

/-- The inner for-loop of audit.py main over the yielded results of one
auditor, updating the report dictionary and the running success flag
(was_successful is cleared as soon as an invalid result is seen). -/
def consumeAuditResults (w : World) (name : String) :
    List FileAuditResult → AuditReport → Bool → AuditReport × Bool
| [], report, was_successful => (report, was_successful)
| r :: rest, report, was_successful =>
  consumeAuditResults w name rest (recordAuditResult w name r report)
    (if !r.valid && was_successful then false else was_successful)

/-- The formatter twin of recordAuditResult (scripts/tasks/format.py). -/
def recordFormatResult (w : World) (name : String) (r : FileFormatResult)
    (report : FormatReport) : FormatReport :=
  let abs := w.absolute r.path
  updateAssoc report abs (updateAssoc ((lookupAssoc report abs).getD []) name r.serialize)

/-- The formatter twin of consumeAuditResults. -/
def consumeFormatResults (w : World) (name : String) :
    List FileFormatResult → FormatReport → Bool → FormatReport × Bool
| [], report, was_successful => (report, was_successful)
| r :: rest, report, was_successful =>
  consumeFormatResults w name rest (recordFormatResult w name r report)
    (if !r.valid && was_successful then false else was_successful)

/-- Observable outcome of one task invocation: either a fatal Python
exception escaped before the report file was opened, or the loops finished,
the report was written, and the process exits by the success flag. -/
inductive TaskOutcome (σ : Type)
| fatal (e : PyError)
| completed (report : σ) (success : Bool)
deriving DecidableEq

/-- The report file is written exactly when no fatal error escaped the
result loops: in the source the open/json.dump happens only after both
loops finished. -/
def TaskOutcome.reportFileWritten {σ : Type} : TaskOutcome σ → Bool
| TaskOutcome.fatal _ => false
| TaskOutcome.completed _ _ => true

/-- Process exit status: a fatal exception exits non-zero; a completed run
raises click.ClickException (non-zero exit) exactly when was_successful is
false. -/
def TaskOutcome.exitsZero {σ : Type} : TaskOutcome σ → Bool
| TaskOutcome.fatal _ => false
| TaskOutcome.completed _ success => success

/-- The mise-exec command prefix of the task entry points:
["mise", "exec", "--"] unless --do-not-use-mise-exec was given. -/
def misePfx (do_not_use_mise_exec : Bool) : Option (List String) :=
  if !do_not_use_mise_exec then some ["mise", "exec", "--"] else none

/-- The outer for-loop of audit.py main over auditors_to_use; a generator
error observed while consuming one auditor's results aborts the run after
the results yielded before it were folded in. -/
def auditMainLoop (w : World) : List AuditorClass → List String →
    Option (List String) → AuditReport → Bool → TaskOutcome AuditReport
| [], _, _, report, was_successful => TaskOutcome.completed report was_successful
| a :: rest, paths, pfx, report, was_successful =>
  let t := perform_auditor_operation w a paths pfx none
  let u := consumeAuditResults w a.name t.1 report was_successful
  match t.2 with
  | some e => TaskOutcome.fatal e
  | none => auditMainLoop w rest paths pfx u.1 u.2

/-- scripts/tasks/audit.py main, given the auditors selected by the
--auditor option and the normalized target list. -/
def auditTaskMain (w : World) (auditors_to_use : List AuditorClass)
    (file_paths_to_check : List String) (do_not_use_mise_exec : Bool) :
    TaskOutcome AuditReport :=
  auditMainLoop w auditors_to_use file_paths_to_check
    (misePfx do_not_use_mise_exec) [] true

/-- The formatter twin of auditMainLoop (scripts/tasks/format.py), which
always requests the FORMAT operation. -/
def formatMainLoop (w : World) : List FormatterClass → List String →
    Option (List String) → FormatReport → Bool → TaskOutcome FormatReport
| [], _, _, report, was_successful => TaskOutcome.completed report was_successful
| f :: rest, paths, pfx, report, was_successful =>
  let t := perform_formatter_operation w f FormatterOperation.format paths pfx none
  let u := consumeFormatResults w f.name t.1 report was_successful
  match t.2 with
  | some e => TaskOutcome.fatal e
  | none => formatMainLoop w rest paths pfx u.1 u.2

/-- scripts/tasks/format.py main. -/
def formatTaskMain (w : World) (formatters_to_use : List FormatterClass)
    (file_paths_to_check : List String) (do_not_use_mise_exec : Bool) :
    TaskOutcome FormatReport :=
  formatMainLoop w formatters_to_use file_paths_to_check
    (misePfx do_not_use_mise_exec) [] true

/-- The full result stream of one audit run, as the task loop consumes it:
the concatenation of each auditor's yields, cut off at the first fatal
error. -/
def auditRunStream (w : World) : List AuditorClass → List String →
    Option (List String) → List FileAuditResult × Option PyError
| [], _, _ => ([], none)
| a :: rest, paths, pfx =>
  let t := perform_auditor_operation w a paths pfx none
  match t.2 with
  | some e => (t.1, some e)
  | none =>
    let u := auditRunStream w rest paths pfx
    (t.1 ++ u.1, u.2)

/-- The full result stream of one format run. -/
def formatRunStream (w : World) : List FormatterClass → List String →
    Option (List String) → List FileFormatResult × Option PyError
| [], _, _ => ([], none)
| f :: rest, paths, pfx =>
  let t := perform_formatter_operation w f FormatterOperation.format paths pfx none
  match t.2 with
  | some e => (t.1, some e)
  | none =>
    let u := formatRunStream w rest paths pfx
    (t.1 ++ u.1, u.2)

/-- The aggregate success verdict over a result stream: the logical AND of
every valid flag, which is what the incremental was_successful update of
the task mains computes. -/
def aggregateSuccess (rs : List FileAuditResult) : Bool :=
  rs.all (fun r => r.valid)

/-- A single result with its validity flipped. -/
def flipValid (r : FileAuditResult) : FileAuditResult :=
  { r with valid := !r.valid }

/-- Flip the validity of the result at a given position, leaving the rest
of the stream unchanged. -/
def flipNth : List FileAuditResult → Nat → List FileAuditResult
| [], _ => []
| r :: rest, 0 => flipValid r :: rest
| r :: rest, Nat.succ n => r :: flipNth rest n

/-- The aggregate success verdict over a format result stream: the logical
AND of every valid flag, which is what the incremental was_successful
update of the format task main computes. -/
def aggregateFormatSuccess (rs : List FileFormatResult) : Bool :=
  rs.all (fun r => r.valid)

/-- A single format result with its validity flipped. -/
def flipValidFmt (r : FileFormatResult) : FileFormatResult :=
  { r with valid := !r.valid }

/-- A concrete environment for evaluating the embedding: everything exists,
every path is a .py file, and the subprocess layer behaves as prescribed. -/
def demoWorld (spawnFn : Cmd → SpawnResult) : World :=
  { spawn := spawnFn,
    pathExists := fun _ => true,
    isFile := fun _ => true,
    isDir := fun _ => false,
    pathSuffix := fun _ => ".py",
    absolute := fun p => "/" ++ p }

/-- Environment in which flake8 reports lint findings (exit 1) on both
a.py and b.py. -/
def c1World : World := demoWorld (fun c =>
  if c = Cmd.shellStr "flake8 a.py" then SpawnResult.completed ⟨1, some "findings", none⟩
  else if c = Cmd.shellStr "flake8 b.py" then SpawnResult.completed ⟨1, some "findings", none⟩
  else SpawnResult.failure "unexpected command")

/-- Environment in which flake8 accepts a.py (exit 0). -/
def cleanWorld : World := demoWorld (fun c =>
  if c = Cmd.shellStr "flake8 a.py" then SpawnResult.completed ⟨0, none, none⟩
  else SpawnResult.failure "unexpected command")

/-- Environment in which flake8 crashes on a.py with exit code 2. -/
def crashWorld : World := demoWorld (fun c =>
  if c = Cmd.shellStr "flake8 a.py" then SpawnResult.completed ⟨2, none, some "boom"⟩
  else SpawnResult.failure "unexpected command")

/-- Environment in which black --check reports a.py unformatted (exit 1)
and the destructive black run succeeds (exit 0). -/
def blackDirtyWorld : World := demoWorld (fun c =>
  if c = Cmd.shellStr "black --check a.py" then SpawnResult.completed ⟨1, none, some "would reformat"⟩
  else if c = Cmd.shellStr "black a.py" then SpawnResult.completed ⟨0, none, some "reformatted"⟩
  else SpawnResult.failure "unexpected command")

/-- Environment in which black --check accepts a.py immediately. -/
def blackCleanWorld : World := demoWorld (fun c =>
  if c = Cmd.shellStr "black --check a.py" then SpawnResult.completed ⟨0, none, none⟩
  else SpawnResult.failure "unexpected command")

/-- Environment in which no command can be spawned at all. -/
def noSpawnWorld : World := demoWorld (fun _ =>
  SpawnResult.failure "No such file or directory: mise")

/-- Environment for the skip/report claims: b.txt exists but is not a
Python file, a.py is audited cleanly, missing.py does not exist. -/
def skipWorld : World :=
  { spawn := fun c =>
      if c = Cmd.shellStr "flake8 a.py" then SpawnResult.completed ⟨0, none, none⟩
      else SpawnResult.failure "unexpected command",
    pathExists := fun p => p ≠ "missing.py",
    isFile := fun _ => true,
    isDir := fun _ => false,
    pathSuffix := fun p => if p = "b.txt" then ".txt" else ".py",
    absolute := fun p => "/" ++ p }

/-- The command constructed by FlakeEightAuditor.audit for one target. -/
def flakeCmd (pfx sfx : Option (List String)) (file_path : String) : Cmd :=
  constructCommand flake8Executable pfx (some ([file_path] ++ (sfx.getD []))) true

/-- The command constructed by BlackFormatter.check for one target. -/
def blackCheckCmd (pfx sfx : Option (List String)) (file_path : String) : Cmd :=
  constructCommand [blackExecutable, "--check"] pfx (some ([file_path] ++ (sfx.getD []))) true

/-- The command constructed by the destructive branch of
BlackFormatter.format for one target. -/
def blackFmtCmd (pfx sfx : Option (List String)) (file_path : String) : Cmd :=
  constructCommand [blackExecutable] pfx (some ([file_path] ++ (sfx.getD []))) true

/-- A completed spawn together with check=False always yields the
from_subprocess_result record. -/
theorem run_completed_nocheck (w : World) (base : List String) (cap shell : Bool)
    (pfx sfx : Option (List String)) (o : SpawnOutcome)
    (h : w.spawn (constructCommand base pfx sfx shell) = SpawnResult.completed o) :
    Command.run w base false cap shell pfx sfx =
      (Except.ok (CommandResult.from_subprocess_result o base
        (constructCommand base pfx sfx shell) pfx sfx shell cap),
       [constructCommand base pfx sfx shell]) := by
  simp [Command.run, h]

/-- The returncode stored by from_subprocess_result is the exit code of the
completed process. -/
theorem from_subprocess_returncode (o : SpawnOutcome) (original : List String)
    (constructed : Cmd) (pfx sfx : Option (List String)) (us cap : Bool) :
    (CommandResult.from_subprocess_result o original constructed pfx sfx us cap).returncode
      = some o.returncode := rfl

/-- C6: a spawn failure (executable not found, permission denied) makes
Command.run propagate a fatal OSError; no CommandResult is produced, so no
degraded exit code can be observed, for any combination of the check,
capture and shell flags. -/
theorem c6_spawn_failure_is_fatal (w : World) (base : List String)
    (check capture_output use_shell : Bool) (pfx sfx : Option (List String)) (msg : String)
    (h : w.spawn (constructCommand base pfx sfx use_shell) = SpawnResult.failure msg) :
    Command.run w base check capture_output use_shell pfx sfx =
      (Except.error (PyError.osErr msg), [constructCommand base pfx sfx use_shell]) := by
  simp [Command.run, h]

/-- Witness for C6 in a concrete environment where nothing can be
spawned. -/
theorem c6_spawn_failure_is_fatal_witness :
    noSpawnWorld.spawn (constructCommand ["flake8"] none none true) =
        SpawnResult.failure "No such file or directory: mise" ∧
    Command.run noSpawnWorld ["flake8"] true true true none none =
      (Except.error (PyError.osErr "No such file or directory: mise"),
       [constructCommand ["flake8"] none none true]) :=
  ⟨rfl, c6_spawn_failure_is_fatal noSpawnWorld ["flake8"] true true true none none
    "No such file or directory: mise" rfl⟩

/-- C8: the executed command is exactly prefix + base + suffix in that
order (joined into one shell string when use_shell is set); a completed
process yields a CommandOutcome regardless of exit code when check is
unset, and with check set a non-zero exit raises CalledProcessError while
exit 0 still yields the outcome. -/
theorem c8_run_construction_and_outcome (w : World) (base : List String)
    (check cap shell : Bool) (pfx sfx : Option (List String)) :
    (constructCommand base pfx sfx false = Cmd.argv ((pfx.getD []) ++ base ++ (sfx.getD []))) ∧
    (constructCommand base pfx sfx true =
      Cmd.shellStr (String.intercalate " " ((pfx.getD []) ++ base ++ (sfx.getD [])))) ∧
    (∀ r tr, Command.run w base check cap shell pfx sfx = (Except.ok r, tr) →
      r.executed_command = constructCommand base pfx sfx shell) ∧
    (∀ o, w.spawn (constructCommand base pfx sfx shell) = SpawnResult.completed o →
      ((check = false → Command.run w base check cap shell pfx sfx =
          (Except.ok (CommandResult.from_subprocess_result o base
            (constructCommand base pfx sfx shell) pfx sfx shell cap),
           [constructCommand base pfx sfx shell])) ∧
       (check = true → o.returncode ≠ 0 → Command.run w base check cap shell pfx sfx =
          (Except.error (PyError.calledProcess o.returncode),
           [constructCommand base pfx sfx shell])) ∧
       (check = true → o.returncode = 0 → Command.run w base check cap shell pfx sfx =
          (Except.ok (CommandResult.from_subprocess_result o base
            (constructCommand base pfx sfx shell) pfx sfx shell cap),
           [constructCommand base pfx sfx shell])))) := by
  refine ⟨by simp [constructCommand], by simp [constructCommand], ?_, ?_⟩
  · intro r tr h
    cases hsp : w.spawn (constructCommand base pfx sfx shell) with
    | failure msg => simp [Command.run, hsp] at h
    | completed o =>
      simp only [Command.run, hsp] at h
      split at h
      · simp at h
      · simp only [Prod.mk.injEq, Except.ok.injEq] at h
        rw [← h.1]
        rfl
  · intro o ho
    refine ⟨?_, ?_, ?_⟩
    · intro hch; subst hch; simp [Command.run, ho]
    · intro hch hne; subst hch; simp [Command.run, ho, hne]
    · intro hch h0; subst hch; simp [Command.run, ho, h0]

/-- Witness for C8 at a concrete clean run of flake8 on a.py. -/
theorem c8_run_construction_and_outcome_witness :
    Command.run cleanWorld ["flake8"] false true true none (some ["a.py"]) =
      (Except.ok (CommandResult.from_subprocess_result ⟨0, none, none⟩ ["flake8"]
        (constructCommand ["flake8"] none (some ["a.py"]) true) none (some ["a.py"]) true true),
       [constructCommand ["flake8"] none (some ["a.py"]) true]) :=
  ((c8_run_construction_and_outcome cleanWorld ["flake8"] false true true none
    (some ["a.py"])).2.2.2 ⟨0, none, none⟩ rfl).1 rfl

/-- The exit code stored in an AuditorError is the one it was raised
with. -/
theorem mkAuditorError_exit_code (msg : String) (c : Int) :
    (mkAuditorError msg (some c)).exit_code = some c := by
  by_cases hc : c = 0 <;> simp [mkAuditorError, hc]

/-- The exit code stored in a FormatterError is the one it was raised
with. -/
theorem mkFormatterError_exit_code (msg : String) (c : Int) :
    (mkFormatterError msg (some c)).exit_code = some c := by
  by_cases hc : c = 0 <;> simp [mkFormatterError, hc]

/-- Reduction of FlakeEightAuditor.audit when the linter process
completes. -/
theorem flake8_audit_completed (w : World) (file_path : String)
    (pfx sfx : Option (List String)) (o : SpawnOutcome)
    (h : w.spawn (flakeCmd pfx sfx file_path) = SpawnResult.completed o) :
    FlakeEightAuditor.audit w file_path pfx sfx =
      (if o.returncode = 0 then
        Except.ok (mkFileAuditResult w file_path "flake8" true
          (some ⟨o.stdoutText, o.stderrText⟩))
      else if o.returncode = 1 then
        Except.ok (mkFileAuditResult w file_path "flake8" false
          (some ⟨o.stdoutText, o.stderrText⟩))
      else
        Except.error (PyError.auditor
          (mkAuditorError ("Unknown error: " ++ toString o.returncode)
            (some o.returncode))), [flakeCmd pfx sfx file_path]) := by
  have hrun := run_completed_nocheck w flake8Executable true true pfx
    (some ([file_path] ++ (sfx.getD []))) o h
  simp only [FlakeEightAuditor.audit, flakeCmd] at *
  rw [hrun]
  by_cases h0 : o.returncode = 0
  · simp [h0, CommandResult.from_subprocess_result, CommandResult.combined_output]
  · by_cases h1 : o.returncode = 1
    · simp [h0, h1, CommandResult.from_subprocess_result, CommandResult.combined_output]
    · simp [h0, h1, CommandResult.from_subprocess_result]

/-- Reduction of BlackFormatter.check when the check process completes. -/
theorem black_check_completed (w : World) (file_path : String)
    (pfx sfx : Option (List String)) (o : SpawnOutcome)
    (h : w.spawn (blackCheckCmd pfx sfx file_path) = SpawnResult.completed o) :
    BlackFormatter.check w file_path pfx sfx =
      (if o.returncode = 0 then
        Except.ok (mkFileFormatResult w file_path "black" true none
          (some ⟨o.stdoutText, o.stderrText⟩))
      else if o.returncode = 1 then
        Except.ok (mkFileFormatResult w file_path "black" false none
          (some ⟨o.stdoutText, o.stderrText⟩))
      else
        Except.error (PyError.formatter
          (mkFormatterError ("Unknown error: " ++ toString o.returncode)
            (some o.returncode))), [blackCheckCmd pfx sfx file_path]) := by
  have hrun := run_completed_nocheck w [blackExecutable, "--check"] true true pfx
    (some ([file_path] ++ (sfx.getD []))) o h
  simp only [BlackFormatter.check, blackCheckCmd] at *
  rw [hrun]
  by_cases h0 : o.returncode = 0
  · simp [h0, CommandResult.from_subprocess_result, CommandResult.combined_output]
  · by_cases h1 : o.returncode = 1
    · simp [h0, h1, CommandResult.from_subprocess_result, CommandResult.combined_output]
    · simp [h0, h1, CommandResult.from_subprocess_result]

/-- C2: on each file, the audit verb of the flake8 auditor and the check
verb of the black formatter classify by the wrapped tool's exit code: 0
yields a valid result, 1 yields an invalid result, and any other exit code
raises a fatal error carrying that code instead of returning a result. -/
theorem c2_exit_code_classification (w : World) (file_path : String)
    (pfx sfx : Option (List String)) (o : SpawnOutcome) :
    (w.spawn (flakeCmd pfx sfx file_path) = SpawnResult.completed o →
      ((o.returncode = 0 → ∃ tr r, FlakeEightAuditor.audit w file_path pfx sfx =
          (Except.ok r, tr) ∧ r.valid = true) ∧
       (o.returncode = 1 → ∃ tr r, FlakeEightAuditor.audit w file_path pfx sfx =
          (Except.ok r, tr) ∧ r.valid = false) ∧
       (o.returncode ≠ 0 → o.returncode ≠ 1 →
         ∃ tr e, FlakeEightAuditor.audit w file_path pfx sfx =
          (Except.error (PyError.auditor e), tr) ∧ e.exit_code = some o.returncode))) ∧
    (w.spawn (blackCheckCmd pfx sfx file_path) = SpawnResult.completed o →
      ((o.returncode = 0 → ∃ tr r, BlackFormatter.check w file_path pfx sfx =
          (Except.ok r, tr) ∧ r.valid = true) ∧
       (o.returncode = 1 → ∃ tr r, BlackFormatter.check w file_path pfx sfx =
          (Except.ok r, tr) ∧ r.valid = false) ∧
       (o.returncode ≠ 0 → o.returncode ≠ 1 →
         ∃ tr e, BlackFormatter.check w file_path pfx sfx =
          (Except.error (PyError.formatter e), tr) ∧ e.exit_code = some o.returncode))) := by
  constructor
  · intro h
    have hred := flake8_audit_completed w file_path pfx sfx o h
    refine ⟨?_, ?_, ?_⟩
    · intro h0
      refine ⟨[flakeCmd pfx sfx file_path],
        mkFileAuditResult w file_path "flake8" true (some ⟨o.stdoutText, o.stderrText⟩),
        ?_, rfl⟩
      rw [hred]; simp [h0]
    · intro h1
      refine ⟨[flakeCmd pfx sfx file_path],
        mkFileAuditResult w file_path "flake8" false (some ⟨o.stdoutText, o.stderrText⟩),
        ?_, rfl⟩
      rw [hred]; simp [h1]
    · intro h0 h1
      refine ⟨[flakeCmd pfx sfx file_path],
        mkAuditorError ("Unknown error: " ++ toString o.returncode) (some o.returncode),
        ?_, mkAuditorError_exit_code _ _⟩
      rw [hred]; simp [h0, h1]
  · intro h
    have hred := black_check_completed w file_path pfx sfx o h
    refine ⟨?_, ?_, ?_⟩
    · intro h0
      refine ⟨[blackCheckCmd pfx sfx file_path],
        mkFileFormatResult w file_path "black" true none (some ⟨o.stdoutText, o.stderrText⟩),
        ?_, rfl⟩
      rw [hred]; simp [h0]
    · intro h1
      refine ⟨[blackCheckCmd pfx sfx file_path],
        mkFileFormatResult w file_path "black" false none (some ⟨o.stdoutText, o.stderrText⟩),
        ?_, rfl⟩
      rw [hred]; simp [h1]
    · intro h0 h1
      refine ⟨[blackCheckCmd pfx sfx file_path],
        mkFormatterError ("Unknown error: " ++ toString o.returncode) (some o.returncode),
        ?_, mkFormatterError_exit_code _ _⟩
      rw [hred]; simp [h0, h1]

/-- Witness for C2: flake8 exiting 2 on a.py raises an error carrying exit
code 2. -/
theorem c2_exit_code_classification_witness :
    ∃ tr e, FlakeEightAuditor.audit crashWorld "a.py" none none =
      (Except.error (PyError.auditor e), tr) ∧ e.exit_code = some 2 :=
  ((c2_exit_code_classification crashWorld "a.py" none none ⟨2, none, some "boom"⟩).1
    rfl).2.2 (by decide) (by decide)

/-- C3: the format verb first runs check; when the check accepts, format
returns valid=True, changed=False having spawned exactly one process (the
check); when the check rejects, the destructive command runs, a non-zero
exit of it raises a fatal error carrying that exit code, and exit 0 yields
valid=True, changed=True. -/
theorem c3_black_format_check_first (w : World) (file_path : String)
    (pfx sfx : Option (List String)) (o o2 : SpawnOutcome) :
    w.spawn (blackCheckCmd pfx sfx file_path) = SpawnResult.completed o →
    ((o.returncode = 0 →
        BlackFormatter.format w file_path pfx sfx =
          (Except.ok (mkFileFormatResult w file_path "black" true (some false) none),
           [blackCheckCmd pfx sfx file_path])) ∧
     (o.returncode = 1 →
        w.spawn (blackFmtCmd pfx sfx file_path) = SpawnResult.completed o2 →
        ((o2.returncode ≠ 0 →
            ∃ e, BlackFormatter.format w file_path pfx sfx =
              (Except.error (PyError.formatter e),
               [blackCheckCmd pfx sfx file_path, blackFmtCmd pfx sfx file_path]) ∧
              e.exit_code = some o2.returncode) ∧
         (o2.returncode = 0 →
            BlackFormatter.format w file_path pfx sfx =
              (Except.ok (mkFileFormatResult w file_path "black" true (some true)
                 (some ⟨o2.stdoutText, o2.stderrText⟩)),
               [blackCheckCmd pfx sfx file_path, blackFmtCmd pfx sfx file_path]))))) := by
  intro h
  have hchk := black_check_completed w file_path pfx sfx o h
  constructor
  · intro h0
    rw [h0] at hchk
    simp only [if_pos rfl] at hchk
    simp [BlackFormatter.format, hchk, mkFileFormatResult]
  · intro h1 h2
    rw [h1] at hchk
    norm_num at hchk
    have hrun2 := run_completed_nocheck w [blackExecutable] true true pfx
      (some ([file_path] ++ (sfx.getD []))) o2 h2
    constructor
    · intro hne
      refine ⟨mkFormatterError ("Failed to format file: " ++ file_path) (some o2.returncode),
        ?_, mkFormatterError_exit_code _ _⟩
      simp only [BlackFormatter.format, hchk, mkFileFormatResult, blackFmtCmd] at *
      rw [hrun2]
      simp [CommandResult.from_subprocess_result, hne, blackCheckCmd]
    · intro h20
      simp only [BlackFormatter.format, hchk, mkFileFormatResult, blackFmtCmd] at *
      rw [hrun2]
      simp [CommandResult.from_subprocess_result, h20, blackCheckCmd,
        CommandResult.combined_output, mkFileFormatResult]

/-- Witness for C3 in an environment where a.py needs formatting and the
destructive run succeeds. -/
theorem c3_black_format_check_first_witness :
    BlackFormatter.format blackDirtyWorld "a.py" none none =
      (Except.ok (mkFileFormatResult blackDirtyWorld "a.py" "black" true (some true)
         (some ⟨none, some "reformatted"⟩)),
       [blackCheckCmd none none "a.py", blackFmtCmd none none "a.py"]) :=
  ((c3_black_format_check_first blackDirtyWorld "a.py" none none
    ⟨1, none, some "would reformat"⟩ ⟨0, none, some "reformatted"⟩ rfl).2 rfl rfl).2 rfl

/-- Every result that BlackFormatter.format returns (rather than raising)
has valid = True: the source constructs its return value with a literal
valid=True in both branches. -/
theorem black_format_ok_valid (w : World) (file_path : String)
    (pfx sfx : Option (List String)) (r : FileFormatResult) (tr : List Cmd)
    (h : BlackFormatter.format w file_path pfx sfx = (Except.ok r, tr)) :
    r.valid = true := by
  unfold BlackFormatter.format at h
  cases hc : BlackFormatter.check w file_path pfx sfx with
  | mk res tr0 =>
    rw [hc] at h
    cases res with
    | error e => simp at h
    | ok c =>
      by_cases hv : c.valid
      · simp only [hv, Bool.not_true, Bool.false_eq_true, if_false, Prod.mk.injEq,
          Except.ok.injEq] at h
        rw [← h.1]
        rfl
      · simp only [Bool.not_eq_true] at hv
        simp only [hv, Bool.not_false, if_true] at h
        cases hr : Command.run w [blackExecutable] false true true pfx
            (some ([file_path] ++ (sfx.getD []))) with
        | mk res2 tr2 =>
          rw [hr] at h
          cases res2 with
          | error e => simp at h
          | ok result =>
            by_cases h0 : result.returncode = some 0
            · simp only [h0, ne_eq, not_true_eq_false, if_neg, Prod.mk.injEq,
                Except.ok.injEq, not_false_eq_true] at h
              rw [← h.1]
              rfl
            · simp [h0] at h

/-- Every result yielded by perform_formatter_operation with the FORMAT
verb on the black formatter is valid. -/
theorem perform_format_black_all_valid (w : World) (paths : List String)
    (pfx sfx : Option (List String)) (r : FileFormatResult)
    (h : r ∈ (perform_formatter_operation w blackClass FormatterOperation.format
      paths pfx sfx).1) : r.valid = true := by
  induction paths with
  | nil => simp [perform_formatter_operation] at h
  | cons p rest ih =>
    by_cases hex : w.pathExists p
    · by_cases hsup : blackClass.is_supported_filetype w p
      · rcases hfmt : blackClass.format w p pfx sfx with ⟨res, tr⟩
        cases res with
        | error e =>
          simp [perform_formatter_operation, hex, hsup, hfmt] at h
        | ok r0 =>
          simp only [perform_formatter_operation, hex, Bool.not_true, Bool.false_eq_true,
            if_false, hsup, hfmt] at h
          rcases List.mem_cons.mp h with h1 | h2
          · subst h1
            exact black_format_ok_valid w p pfx sfx r tr hfmt
          · exact ih h2
      · simp only [perform_formatter_operation, hex, Bool.not_true, Bool.false_eq_true,
          if_false, hsup, Bool.not_false, if_true] at h
        exact ih h
    · simp only [Bool.not_eq_true] at hex
      simp [perform_formatter_operation, hex] at h

/-- Splitting the auditor target loop at a clean position: when the first
block of targets produces no fatal error, the run on the concatenation is
the first block's yields followed by the second block's run. -/
theorem perform_auditor_append_clean (w : World) (cls : AuditorClass)
    (xs ys : List String) (pfx sfx : Option (List String))
    (h : (perform_auditor_operation w cls xs pfx sfx).2 = none) :
    perform_auditor_operation w cls (xs ++ ys) pfx sfx =
      ((perform_auditor_operation w cls xs pfx sfx).1 ++
        (perform_auditor_operation w cls ys pfx sfx).1,
       (perform_auditor_operation w cls ys pfx sfx).2) := by
  induction xs with
  | nil => simp [perform_auditor_operation]
  | cons p rest ih =>
    by_cases hex : w.pathExists p
    · by_cases hsup : cls.is_supported_filetype w p
      · rcases haud : cls.audit w p pfx sfx with ⟨res, tr⟩
        cases res with
        | error e =>
          simp [perform_auditor_operation, hex, hsup, haud] at h
        | ok r0 =>
          simp only [perform_auditor_operation, hex, Bool.not_true, Bool.false_eq_true,
            if_false, hsup, haud, List.cons_append, List.append_eq] at h ⊢
          rw [ih h]
      · simp only [perform_auditor_operation, hex, Bool.not_true, Bool.false_eq_true,
          if_false, hsup, Bool.not_false, if_true, List.cons_append, List.append_eq] at h ⊢
        exact ih h
    · simp only [Bool.not_eq_true] at hex
      simp [perform_auditor_operation, hex] at h

/-- The formatter twin of perform_auditor_append_clean. -/
theorem perform_formatter_append_clean (w : World) (cls : FormatterClass)
    (operation : FormatterOperation) (xs ys : List String)
    (pfx sfx : Option (List String))
    (h : (perform_formatter_operation w cls operation xs pfx sfx).2 = none) :
    perform_formatter_operation w cls operation (xs ++ ys) pfx sfx =
      ((perform_formatter_operation w cls operation xs pfx sfx).1 ++
        (perform_formatter_operation w cls operation ys pfx sfx).1,
       (perform_formatter_operation w cls operation ys pfx sfx).2) := by
  induction xs with
  | nil => simp [perform_formatter_operation]
  | cons p rest ih =>
    by_cases hex : w.pathExists p
    · by_cases hsup : cls.is_supported_filetype w p
      · rcases hop : (match operation with
          | FormatterOperation.check => cls.check
          | FormatterOperation.format => cls.format) w p pfx sfx with ⟨res, tr⟩
        cases res with
        | error e =>
          simp [perform_formatter_operation, hex, hsup, hop] at h
        | ok r0 =>
          simp only [perform_formatter_operation, hex, Bool.not_true, Bool.false_eq_true,
            if_false, hsup, hop, List.cons_append, List.append_eq] at h ⊢
          rw [ih h]
      · simp only [perform_formatter_operation, hex, Bool.not_true, Bool.false_eq_true,
          if_false, hsup, Bool.not_false, if_true, List.cons_append, List.append_eq] at h ⊢
        exact ih h
    · simp only [Bool.not_eq_true] at hex
      simp [perform_formatter_operation, hex] at h

/-- An existing target rejected by the applicability predicate is skipped:
the rest of the targets are processed as if it were absent. -/
theorem perform_auditor_skip (w : World) (cls : AuditorClass) (t : String)
    (rest : List String) (pfx sfx : Option (List String))
    (hex : w.pathExists t = true) (hsup : cls.is_supported_filetype w t = false) :
    perform_auditor_operation w cls (t :: rest) pfx sfx =
      perform_auditor_operation w cls rest pfx sfx := by
  simp [perform_auditor_operation, hex, hsup]

/-- The formatter twin of perform_auditor_skip. -/
theorem perform_formatter_skip (w : World) (cls : FormatterClass)
    (operation : FormatterOperation) (t : String) (rest : List String)
    (pfx sfx : Option (List String))
    (hex : w.pathExists t = true) (hsup : cls.is_supported_filetype w t = false) :
    perform_formatter_operation w cls operation (t :: rest) pfx sfx =
      perform_formatter_operation w cls operation rest pfx sfx := by
  simp [perform_formatter_operation, hex, hsup]

/-- An ok result of the flake8 audit verb carries the audited target as its
path. -/
theorem flake8_audit_ok_path (w : World) (p : String) (pfx sfx : Option (List String))
    (r : FileAuditResult) (tr : List Cmd)
    (h : FlakeEightAuditor.audit w p pfx sfx = (Except.ok r, tr)) : r.path = p := by
  unfold FlakeEightAuditor.audit at h
  cases hr : Command.run w flake8Executable false true true pfx
      (some ([p] ++ (sfx.getD []))) with
  | mk res tr0 =>
    rw [hr] at h
    cases res with
    | error e => simp at h
    | ok result =>
      cases hrc : result.returncode with
      | none => simp [hrc] at h
      | some c =>
        by_cases h0 : c = 0
        · simp only [hrc, h0, if_pos, Prod.mk.injEq, Except.ok.injEq] at h
          rw [← h.1]; rfl
        · by_cases h1 : c = 1
          · simp [hrc, h0, h1] at h
            rw [← h.1]; rfl
          · simp [hrc, h0, h1] at h

/-- Every result yielded by the auditor orchestrator running the flake8
auditor concerns a target of the run that passed the applicability
predicate. -/
theorem perform_flake8_mem (w : World) (paths : List String)
    (pfx sfx : Option (List String)) (r : FileAuditResult)
    (h : r ∈ (perform_auditor_operation w flake8Class paths pfx sfx).1) :
    r.path ∈ paths ∧ flake8Class.is_supported_filetype w r.path = true := by
  induction paths with
  | nil => simp [perform_auditor_operation] at h
  | cons p rest ih =>
    by_cases hex : w.pathExists p
    · by_cases hsup : flake8Class.is_supported_filetype w p
      · rcases haud : flake8Class.audit w p pfx sfx with ⟨res, tr⟩
        cases res with
        | error e =>
          simp [perform_auditor_operation, hex, hsup, haud] at h
        | ok r0 =>
          simp only [perform_auditor_operation, hex, Bool.not_true, Bool.false_eq_true,
            if_false, hsup, haud] at h
          rcases List.mem_cons.mp h with h1 | h2
          · subst h1
            have hp : r.path = p := flake8_audit_ok_path w p pfx sfx r tr haud
            rw [hp]
            exact ⟨List.mem_cons_self p rest, hsup⟩
          · rcases ih h2 with ⟨hmem, hsup2⟩
            exact ⟨List.mem_cons_of_mem p hmem, hsup2⟩
      · simp only [perform_auditor_operation, hex, Bool.not_true, Bool.false_eq_true,
          if_false, hsup, Bool.not_false, if_true] at h
        rcases ih h with ⟨hmem, hsup2⟩
        exact ⟨List.mem_cons_of_mem p hmem, hsup2⟩
    · simp only [Bool.not_eq_true] at hex
      simp [perform_auditor_operation, hex] at h

/-- The running was_successful flag after folding a block of results is the
incoming flag AND the conjunction of their valid fields. -/
theorem consumeAuditResults_snd (w : World) (name : String) (rs : List FileAuditResult)
    (report : AuditReport) (ws : Bool) :
    (consumeAuditResults w name rs report ws).2 = (ws && rs.all fun r => r.valid) := by
  induction rs generalizing report ws with
  | nil => simp [consumeAuditResults]
  | cons r rest ih =>
    simp only [consumeAuditResults, List.all_cons]
    rw [ih]
    cases hv : r.valid <;> cases ws <;> simp [hv]

/-- The formatter twin of consumeAuditResults_snd. -/
theorem consumeFormatResults_snd (w : World) (name : String) (rs : List FileFormatResult)
    (report : FormatReport) (ws : Bool) :
    (consumeFormatResults w name rs report ws).2 = (ws && rs.all fun r => r.valid) := by
  induction rs generalizing report ws with
  | nil => simp [consumeFormatResults]
  | cons r rest ih =>
    simp only [consumeFormatResults, List.all_cons]
    rw [ih]
    cases hv : r.valid <;> cases ws <;> simp [hv]

/-- A completed audit task loop means the whole stream was consumed without
a fatal error, and the final success flag is the incoming flag AND the
conjunction of every streamed result's valid field. -/
theorem auditMainLoop_completed (w : World) (as : List AuditorClass)
    (paths : List String) (pfx : Option (List String)) (report : AuditReport)
    (ws : Bool) (rep : AuditReport) (s : Bool)
    (h : auditMainLoop w as paths pfx report ws = TaskOutcome.completed rep s) :
    (auditRunStream w as paths pfx).2 = none ∧
      s = (ws && (auditRunStream w as paths pfx).1.all fun r => r.valid) := by
  induction as generalizing report ws with
  | nil =>
    simp only [auditMainLoop] at h
    cases h
    simp [auditRunStream]
  | cons a rest ih =>
    simp only [auditMainLoop] at h
    cases ht : (perform_auditor_operation w a paths pfx none).2 with
    | some e => rw [ht] at h; cases h
    | none =>
      rw [ht] at h
      rcases ih _ _ h with ⟨h1, h2⟩
      constructor
      · simp only [auditRunStream, ht, h1]
      · rw [h2, consumeAuditResults_snd]
        simp only [auditRunStream, ht]
        simp [List.all_append, Bool.and_assoc]

/-- The formatter twin of auditMainLoop_completed. -/
theorem formatMainLoop_completed (w : World) (fs : List FormatterClass)
    (paths : List String) (pfx : Option (List String)) (report : FormatReport)
    (ws : Bool) (rep : FormatReport) (s : Bool)
    (h : formatMainLoop w fs paths pfx report ws = TaskOutcome.completed rep s) :
    (formatRunStream w fs paths pfx).2 = none ∧
      s = (ws && (formatRunStream w fs paths pfx).1.all fun r => r.valid) := by
  induction fs generalizing report ws with
  | nil =>
    simp only [formatMainLoop] at h
    cases h
    simp [formatRunStream]
  | cons f rest ih =>
    simp only [formatMainLoop] at h
    cases ht : (perform_formatter_operation w f FormatterOperation.format paths pfx none).2 with
    | some e => rw [ht] at h; cases h
    | none =>
      rw [ht] at h
      rcases ih _ _ h with ⟨h1, h2⟩
      constructor
      · simp only [formatRunStream, ht, h1]
      · rw [h2, consumeFormatResults_snd]
        simp only [formatRunStream, ht]
        simp [List.all_append, Bool.and_assoc]

/-- A fatal error anywhere in the audit result stream aborts the task loop
with exactly that error. -/
theorem auditMainLoop_fatal (w : World) (as : List AuditorClass)
    (paths : List String) (pfx : Option (List String)) (report : AuditReport)
    (ws : Bool) (e : PyError)
    (h : (auditRunStream w as paths pfx).2 = some e) :
    auditMainLoop w as paths pfx report ws = TaskOutcome.fatal e := by
  induction as generalizing report ws with
  | nil => simp [auditRunStream] at h
  | cons a rest ih =>
    cases ht : (perform_auditor_operation w a paths pfx none).2 with
    | some e2 =>
      simp only [auditRunStream, ht, Option.some.injEq] at h
      simp only [auditMainLoop, ht]
      rw [h]
    | none =>
      simp only [auditRunStream, ht] at h
      simp only [auditMainLoop, ht]
      exact ih _ _ h

/-- The formatter twin of auditMainLoop_fatal. -/
theorem formatMainLoop_fatal (w : World) (fs : List FormatterClass)
    (paths : List String) (pfx : Option (List String)) (report : FormatReport)
    (ws : Bool) (e : PyError)
    (h : (formatRunStream w fs paths pfx).2 = some e) :
    formatMainLoop w fs paths pfx report ws = TaskOutcome.fatal e := by
  induction fs generalizing report ws with
  | nil => simp [formatRunStream] at h
  | cons f rest ih =>
    cases ht : (perform_formatter_operation w f FormatterOperation.format paths pfx none).2 with
    | some e2 =>
      simp only [formatRunStream, ht, Option.some.injEq] at h
      simp only [formatMainLoop, ht]
      rw [h]
    | none =>
      simp only [formatRunStream, ht] at h
      simp only [formatMainLoop, ht]
      exact ih _ _ h

/-- C4: a nonexistent target in the normalized target list aborts the run
fatally with the target-not-found error as soon as it is reached: the run
yields exactly the results of the targets before it and nothing after it,
for the auditor orchestrator and for the formatter orchestrator alike. -/
theorem c4_missing_target_aborts :
    (∀ (w : World) (cls : AuditorClass) (pre : List String) (p : String)
       (post : List String) (pfx sfx : Option (List String)),
       (perform_auditor_operation w cls pre pfx sfx).2 = none →
       w.pathExists p = false →
       perform_auditor_operation w cls (pre ++ p :: post) pfx sfx =
         ((perform_auditor_operation w cls pre pfx sfx).1,
          some (PyError.auditor (mkAuditorError ("File does not exist: " ++ p) none)))) ∧
    (∀ (w : World) (cls : FormatterClass) (operation : FormatterOperation)
       (pre : List String) (p : String) (post : List String)
       (pfx sfx : Option (List String)),
       (perform_formatter_operation w cls operation pre pfx sfx).2 = none →
       w.pathExists p = false →
       perform_formatter_operation w cls operation (pre ++ p :: post) pfx sfx =
         ((perform_formatter_operation w cls operation pre pfx sfx).1,
          some (PyError.formatter (mkFormatterError ("File does not exist: " ++ p) none)))) := by
  constructor
  · intro w cls pre p post pfx sfx hpre hnp
    rw [perform_auditor_append_clean w cls pre (p :: post) pfx sfx hpre]
    simp [perform_auditor_operation, hnp]
  · intro w cls operation pre p post pfx sfx hpre hnp
    rw [perform_formatter_append_clean w cls operation pre (p :: post) pfx sfx hpre]
    simp [perform_formatter_operation, hnp]

/-- Witness for C4: the missing target missing.py after the clean target
a.py aborts the auditor run with the target-not-found error. -/
theorem c4_missing_target_aborts_witness :
    perform_auditor_operation skipWorld flake8Class (["a.py"] ++ "missing.py" :: []) none none =
      ((perform_auditor_operation skipWorld flake8Class ["a.py"] none none).1,
       some (PyError.auditor (mkAuditorError ("File does not exist: " ++ "missing.py") none))) :=
  c4_missing_target_aborts.1 skipWorld flake8Class ["a.py"] "missing.py" [] none none
    (by decide) (by decide)

/-- C9: a fatal error from any (plugin, target) item makes the task abort
with that error, exiting non-zero with no report file written; conversely
the report file exists only when the entire stream was consumed without a
fatal error.  Stated for the audit task and the format task. -/
theorem c9_fatal_error_aborts_run :
    (∀ (w : World) (as : List AuditorClass) (paths : List String) (flag : Bool)
       (e : PyError), (auditRunStream w as paths (misePfx flag)).2 = some e →
       auditTaskMain w as paths flag = TaskOutcome.fatal e ∧
       (auditTaskMain w as paths flag).reportFileWritten = false ∧
       (auditTaskMain w as paths flag).exitsZero = false) ∧
    (∀ (w : World) (as : List AuditorClass) (paths : List String) (flag : Bool),
       (auditTaskMain w as paths flag).reportFileWritten = true →
       (auditRunStream w as paths (misePfx flag)).2 = none) ∧
    (∀ (w : World) (fs : List FormatterClass) (paths : List String) (flag : Bool)
       (e : PyError), (formatRunStream w fs paths (misePfx flag)).2 = some e →
       formatTaskMain w fs paths flag = TaskOutcome.fatal e ∧
       (formatTaskMain w fs paths flag).reportFileWritten = false ∧
       (formatTaskMain w fs paths flag).exitsZero = false) ∧
    (∀ (w : World) (fs : List FormatterClass) (paths : List String) (flag : Bool),
       (formatTaskMain w fs paths flag).reportFileWritten = true →
       (formatRunStream w fs paths (misePfx flag)).2 = none) := by
  refine ⟨?_, ?_, ?_, ?_⟩
  · intro w as paths flag e h
    have hl : auditTaskMain w as paths flag = TaskOutcome.fatal e :=
      auditMainLoop_fatal w as paths (misePfx flag) [] true e h
    rw [hl]
    exact ⟨rfl, rfl, rfl⟩
  · intro w as paths flag h
    cases hX : auditTaskMain w as paths flag with
    | fatal e => rw [hX] at h; simp [TaskOutcome.reportFileWritten] at h
    | completed rep s =>
      exact (auditMainLoop_completed w as paths (misePfx flag) [] true rep s hX).1
  · intro w fs paths flag e h
    have hl : formatTaskMain w fs paths flag = TaskOutcome.fatal e :=
      formatMainLoop_fatal w fs paths (misePfx flag) [] true e h
    rw [hl]
    exact ⟨rfl, rfl, rfl⟩
  · intro w fs paths flag h
    cases hX : formatTaskMain w fs paths flag with
    | fatal e => rw [hX] at h; simp [TaskOutcome.reportFileWritten] at h
    | completed rep s =>
      exact (formatMainLoop_completed w fs paths (misePfx flag) [] true rep s hX).1

/-- Witness for C9: flake8 exiting 2 on a.py aborts the audit task with the
ToolExecutionError carrying exit code 2, no report written, non-zero
exit. -/
theorem c9_fatal_error_aborts_run_witness :
    auditTaskMain crashWorld [flake8Class] ["a.py"] true =
      TaskOutcome.fatal (PyError.auditor (mkAuditorError "Unknown error: 2" (some 2))) ∧
    (auditTaskMain crashWorld [flake8Class] ["a.py"] true).reportFileWritten = false ∧
    (auditTaskMain crashWorld [flake8Class] ["a.py"] true).exitsZero = false :=
  c9_fatal_error_aborts_run.1 crashWorld [flake8Class] ["a.py"] true
    (PyError.auditor (mkAuditorError "Unknown error: 2" (some 2))) (by decide)

/-- C10: the format verb only ever returns valid results (both of its
return sites set valid=True literally), so a format-task run either aborts
fatally or completes with aggregate success true — it can never complete
with aggregate success false. -/
theorem c10_format_never_fails_aggregate :
    (∀ (w : World) (file_path : String) (pfx sfx : Option (List String))
       (r : FileFormatResult) (tr : List Cmd),
       BlackFormatter.format w file_path pfx sfx = (Except.ok r, tr) → r.valid = true) ∧
    (∀ (w : World) (paths : List String) (flag : Bool) (rep : FormatReport) (s : Bool),
       formatTaskMain w [blackClass] paths flag = TaskOutcome.completed rep s →
       s = true) := by
  constructor
  · exact black_format_ok_valid
  · intro w paths flag rep s h
    rcases formatMainLoop_completed w [blackClass] paths (misePfx flag) [] true rep s h
      with ⟨h1, h2⟩
    rw [h2, Bool.true_and]
    cases ht : (perform_formatter_operation w blackClass FormatterOperation.format paths
        (misePfx flag) none).2 with
    | some e => simp [formatRunStream, ht] at h1
    | none =>
      simp only [formatRunStream, ht, List.append_nil]
      rw [List.all_eq_true]
      intro r hr
      exact perform_format_black_all_valid w paths (misePfx flag) none r hr

/-- Looking up a key after a dict update: the updated key maps to the new
value, every other key is unchanged. -/
theorem lookupAssoc_updateAssoc {β : Type} (d : List (String × β)) (k : String) (v : β)
    (q : String) :
    lookupAssoc (updateAssoc d k v) q = if k = q then some v else lookupAssoc d q := by
  induction d with
  | nil => simp [updateAssoc, lookupAssoc]
  | cons kv rest ih =>
    rcases kv with ⟨a, b⟩
    by_cases hak : a = k
    · subst hak
      simp only [updateAssoc, if_pos rfl]
      by_cases haq : a = q
      · subst haq; simp [lookupAssoc]
      · simp [lookupAssoc, haq]
    · simp only [updateAssoc, if_neg hak]
      by_cases haq : a = q
      · subst haq
        have hka : ¬ k = a := fun hh => hak hh.symm
        simp [lookupAssoc, hka]
      · simp [lookupAssoc, haq, ih]

/-- recordAuditResult only touches the key of the recorded result's
absolute path. -/
theorem lookupAssoc_recordAudit_none (w : World) (name : String) (r : FileAuditResult)
    (report : AuditReport) (q : String) (h : lookupAssoc report q = none)
    (hne : ¬ w.absolute r.path = q) :
    lookupAssoc (recordAuditResult w name r report) q = none := by
  unfold recordAuditResult
  rw [lookupAssoc_updateAssoc]
  simp [hne, h]

/-- Folding a block of results whose absolute paths all differ from q never
creates the key q. -/
theorem lookupAssoc_consumeAudit_none (w : World) (name : String)
    (rs : List FileAuditResult) (report : AuditReport) (ws : Bool) (q : String)
    (h : lookupAssoc report q = none)
    (hall : ∀ r ∈ rs, ¬ w.absolute r.path = q) :
    lookupAssoc (consumeAuditResults w name rs report ws).1 q = none := by
  induction rs generalizing report ws with
  | nil => simpa [consumeAuditResults] using h
  | cons r rest ih =>
    simp only [consumeAuditResults]
    apply ih
    · exact lookupAssoc_recordAudit_none w name r report q h
        (hall r (List.mem_cons_self r rest))
    · intro r2 h2
      exact hall r2 (List.mem_cons_of_mem _ h2)

/-- The report of a completed audit task has no key q when no streamed
result of any selected auditor resolves to the absolute path q. -/
theorem lookupAssoc_auditLoop_none (w : World) (as : List AuditorClass)
    (paths : List String) (pfx : Option (List String)) (report : AuditReport)
    (ws : Bool) (rep : AuditReport) (s : Bool) (q : String)
    (h : auditMainLoop w as paths pfx report ws = TaskOutcome.completed rep s)
    (h0 : lookupAssoc report q = none)
    (hall : ∀ a ∈ as, ∀ r ∈ (perform_auditor_operation w a paths pfx none).1,
       ¬ w.absolute r.path = q) :
    lookupAssoc rep q = none := by
  induction as generalizing report ws with
  | nil =>
    simp only [auditMainLoop] at h
    cases h
    exact h0
  | cons a rest ih =>
    simp only [auditMainLoop] at h
    cases ht : (perform_auditor_operation w a paths pfx none).2 with
    | some e => rw [ht] at h; cases h
    | none =>
      rw [ht] at h
      refine ih _ _ h ?_ ?_
      · exact lookupAssoc_consumeAudit_none w a.name _ report ws q h0
          (fun r hr => hall a (List.mem_cons_self a rest) r hr)
      · intro a2 ha2 r hr
        exact hall a2 (List.mem_cons_of_mem _ ha2) r hr

/-- C7: a target rejected by the plugin's applicability predicate is
skipped non-fatally (the run continues exactly as if the target were
absent), and the absolute path of such a target never appears as a key of
the AggregateReport of a completed audit run (assuming no other target of
the run resolves to the same absolute path). -/
theorem c7_unsupported_target_never_in_report :
    (∀ (w : World) (cls : AuditorClass) (t : String) (rest : List String)
       (pfx sfx : Option (List String)),
       w.pathExists t = true → cls.is_supported_filetype w t = false →
       perform_auditor_operation w cls (t :: rest) pfx sfx =
         perform_auditor_operation w cls rest pfx sfx) ∧
    (∀ (w : World) (cls : FormatterClass) (operation : FormatterOperation) (t : String)
       (rest : List String) (pfx sfx : Option (List String)),
       w.pathExists t = true → cls.is_supported_filetype w t = false →
       perform_formatter_operation w cls operation (t :: rest) pfx sfx =
         perform_formatter_operation w cls operation rest pfx sfx) ∧
    (∀ (w : World) (paths : List String) (flag : Bool) (t : String)
       (rep : AuditReport) (s : Bool),
       t ∈ paths →
       flake8IsSupportedFiletype w t = false →
       (∀ p ∈ paths, w.absolute p = w.absolute t → p = t) →
       auditTaskMain w [flake8Class] paths flag = TaskOutcome.completed rep s →
       lookupAssoc rep (w.absolute t) = none) := by
  refine ⟨perform_auditor_skip, perform_formatter_skip, ?_⟩
  intro w paths flag t rep s htmem hsup hinj hmain
  refine lookupAssoc_auditLoop_none w [flake8Class] paths (misePfx flag) [] true rep s
    (w.absolute t) hmain rfl ?_
  intro a ha r hr
  have ha2 : a = flake8Class := by simpa using ha
  subst ha2
  rcases perform_flake8_mem w paths (misePfx flag) none r hr with ⟨hmem, hr_sup⟩
  intro habs
  have hrt : r.path = t := hinj r.path hmem habs
  rw [hrt] at hr_sup
  have hsup2 : flake8IsSupportedFiletype w t = true := hr_sup
  rw [hsup] at hsup2
  cases hsup2

/-- Witness for C7: in a two-target run where b.txt exists but is not a
Python file, the completed report has no key for b.txt. -/
theorem c7_unsupported_target_never_in_report_witness :
    lookupAssoc
      [("/a.py", [("flake8",
        SerializedAudit.mk "a.py" "file" true (some (OutputDict.mk none none)))])]
      (skipWorld.absolute "b.txt") = none :=
  c7_unsupported_target_never_in_report.2.2 skipWorld ["a.py", "b.txt"] true "b.txt"
    [("/a.py", [("flake8",
      SerializedAudit.mk "a.py" "file" true (some (OutputDict.mk none none)))])]
    true (by decide) (by decide) (by decide) (by decide)

/-- The validity of a flipped result is the negation of the original. -/
theorem flipValid_valid (r : FileAuditResult) : (flipValid r).valid = !r.valid := rfl

/-- Counterexample to C1 as stated: in a run whose two results are both
invalid, the aggregate verdict is false, and flipping the validity of the
first result leaves the aggregate verdict unchanged (still false) — so
flipping a single result's validity does not always flip the aggregate. -/
theorem c1_flip_counterexample :
    ((auditRunStream c1World [flake8Class] ["a.py", "b.py"] none).1.map
        fun r => r.valid) = [false, false] ∧
    aggregateSuccess (auditRunStream c1World [flake8Class] ["a.py", "b.py"] none).1 = false ∧
    aggregateSuccess
        (flipNth (auditRunStream c1World [flake8Class] ["a.py", "b.py"] none).1 0) =
      aggregateSuccess (auditRunStream c1World [flake8Class] ["a.py", "b.py"] none).1 ∧
    (auditTaskMain c1World [flake8Class] ["a.py", "b.py"] true).exitsZero = false := by
  exact ⟨by decide, by decide, by decide, by decide⟩

/-- The validity of a flipped format result is the negation of the
original. -/
theorem flipValidFmt_valid (r : FileFormatResult) : (flipValidFmt r).valid = !r.valid := rfl

/-- C1 amended: for both orchestration entry points (the audit task and
the format task), the aggregate success flag of a completed run equals the
AND of every streamed result's valid field (false iff at least one result
is invalid); flipping a single result's validity flips the aggregate if and
only if every other result of the run is valid. -/
theorem c1_aggregate_success_amended :
    (∀ (w : World) (as : List AuditorClass) (paths : List String) (flag : Bool),
       (auditTaskMain w as paths flag).reportFileWritten = true →
       (auditTaskMain w as paths flag).exitsZero =
         aggregateSuccess (auditRunStream w as paths (misePfx flag)).1) ∧
    (∀ rs : List FileAuditResult,
       aggregateSuccess rs = false ↔ ∃ r, r ∈ rs ∧ r.valid = false) ∧
    (∀ (rs1 rs2 : List FileAuditResult) (r : FileAuditResult),
       (aggregateSuccess (rs1 ++ flipValid r :: rs2) =
          !aggregateSuccess (rs1 ++ r :: rs2)) ↔
         (aggregateSuccess rs1 = true ∧ aggregateSuccess rs2 = true)) ∧
    (∀ (w : World) (fs : List FormatterClass) (paths : List String) (flag : Bool),
       (formatTaskMain w fs paths flag).reportFileWritten = true →
       (formatTaskMain w fs paths flag).exitsZero =
         aggregateFormatSuccess (formatRunStream w fs paths (misePfx flag)).1) ∧
    (∀ rs : List FileFormatResult,
       aggregateFormatSuccess rs = false ↔ ∃ r, r ∈ rs ∧ r.valid = false) ∧
    (∀ (rs1 rs2 : List FileFormatResult) (r : FileFormatResult),
       (aggregateFormatSuccess (rs1 ++ flipValidFmt r :: rs2) =
          !aggregateFormatSuccess (rs1 ++ r :: rs2)) ↔
         (aggregateFormatSuccess rs1 = true ∧ aggregateFormatSuccess rs2 = true)) := by
  refine ⟨?_, ?_, ?_, ?_, ?_, ?_⟩
  · intro w as paths flag h
    cases hX : auditTaskMain w as paths flag with
    | fatal e => rw [hX] at h; simp [TaskOutcome.reportFileWritten] at h
    | completed rep s =>
      rcases auditMainLoop_completed w as paths (misePfx flag) [] true rep s hX with ⟨h1, h2⟩
      simp only [TaskOutcome.exitsZero, h2, Bool.true_and, aggregateSuccess]
  · intro rs
    unfold aggregateSuccess
    rw [List.all_eq_false]
    constructor
    · rintro ⟨r, hmem, hval⟩
      exact ⟨r, hmem, by simpa using hval⟩
    · rintro ⟨r, hmem, hval⟩
      exact ⟨r, hmem, by simp [hval]⟩
  · intro rs1 rs2 r
    simp only [aggregateSuccess, List.all_append, List.all_cons, flipValid_valid]
    cases hA : rs1.all fun x => x.valid <;> cases hB : rs2.all fun x => x.valid <;>
      cases hv : r.valid <;> simp
  · intro w fs paths flag h
    cases hX : formatTaskMain w fs paths flag with
    | fatal e => rw [hX] at h; simp [TaskOutcome.reportFileWritten] at h
    | completed rep s =>
      rcases formatMainLoop_completed w fs paths (misePfx flag) [] true rep s hX with ⟨h1, h2⟩
      simp only [TaskOutcome.exitsZero, h2, Bool.true_and, aggregateFormatSuccess]
  · intro rs
    unfold aggregateFormatSuccess
    rw [List.all_eq_false]
    constructor
    · rintro ⟨r, hmem, hval⟩
      exact ⟨r, hmem, by simpa using hval⟩
    · rintro ⟨r, hmem, hval⟩
      exact ⟨r, hmem, by simp [hval]⟩
  · intro rs1 rs2 r
    simp only [aggregateFormatSuccess, List.all_append, List.all_cons, flipValidFmt_valid]
    cases hA : rs1.all fun x => x.valid <;> cases hB : rs2.all fun x => x.valid <;>
      cases hv : r.valid <;> simp

/-- Witness for C1 amended, at a concrete clean single-target audit run
and a concrete clean single-target format run. -/
theorem c1_aggregate_success_amended_witness :
    ((auditTaskMain cleanWorld [flake8Class] ["a.py"] true).exitsZero =
       aggregateSuccess (auditRunStream cleanWorld [flake8Class] ["a.py"] (misePfx true)).1) ∧
    ((formatTaskMain blackCleanWorld [blackClass] ["a.py"] true).exitsZero =
       aggregateFormatSuccess
         (formatRunStream blackCleanWorld [blackClass] ["a.py"] (misePfx true)).1) :=
  ⟨c1_aggregate_success_amended.1 cleanWorld [flake8Class] ["a.py"] true (by decide),
   c1_aggregate_success_amended.2.2.2.1 blackCleanWorld [blackClass] ["a.py"] true (by decide)⟩

/-- Witness for C10: a clean check makes format return a valid result. -/
theorem c10_format_never_fails_aggregate_witness :
    (mkFileFormatResult blackCleanWorld "a.py" "black" true (some false) none).valid = true :=
  c10_format_never_fails_aggregate.1 blackCleanWorld "a.py" none none
    (mkFileFormatResult blackCleanWorld "a.py" "black" true (some false) none)
    [blackCheckCmd none none "a.py"] rfl

/-- Membership after a dict update: the element carries the updated key or
was already present. -/
theorem mem_updateAssoc {β : Type} (d : List (String × β)) (k : String) (v : β)
    (kv : String × β) (h : kv ∈ updateAssoc d k v) : kv.1 = k ∨ kv ∈ d := by
  induction d with
  | nil =>
    simp only [updateAssoc, List.mem_singleton] at h
    left
    rw [h]
  | cons a rest ih =>
    rcases a with ⟨a1, a2⟩
    by_cases hak : a1 = k
    · simp only [updateAssoc, if_pos hak] at h
      rcases List.mem_cons.mp h with h1 | h2
      · left; rw [h1]
      · right; exact List.mem_cons_of_mem _ h2
    · simp only [updateAssoc, if_neg hak] at h
      rcases List.mem_cons.mp h with h1 | h2
      · right; rw [h1]; exact List.mem_cons_self _ _
      · rcases ih h2 with h3 | h4
        · left; exact h3
        · right; exact List.mem_cons_of_mem _ h4

/-- A name that passes all three discovery checks satisfies the plugin-name
constraint as the specification states it. -/
theorem name_checks_imply_spec (nm : String)
    (hall : ¬ pyLower nm = "all") (ha : pyIsAlnum nm = true) (hl : pyIsLower nm = true) :
    specPluginNameOk nm := by
  unfold pyIsAlnum at ha
  rw [Bool.and_eq_true] at ha
  obtain ⟨ha1, ha2⟩ := ha
  unfold pyIsLower at hl
  rw [Bool.and_eq_true] at hl
  obtain ⟨hl1, hl2⟩ := hl
  refine ⟨?_, ?_, ?_⟩
  · intro he; subst he; exact absurd hl1 (by decide)
  · intro he; subst he; exact hall (by decide)
  · intro c hc
    have hca := List.all_eq_true.mp ha2 c hc
    have hcl := List.all_eq_true.mp hl2 c hc
    simp only [Char.isAlphanum] at hca
    cases hAlpha : c.isAlpha
    · right
      rw [hAlpha] at hca
      simpa using hca
    · left
      rw [hAlpha] at hcl
      simpa using hcl

/-- Every key of a registry produced by a successful auditor discovery
satisfies the plugin-name constraint, given that the accumulator already
does. -/
theorem discoverAuditorsAux_ok_keys (cands : List CandidateClass)
    (acc reg : List (String × CandidateClass))
    (hacc : ∀ kv ∈ acc, specPluginNameOk kv.1)
    (h : discoverAuditorsAux cands acc = Except.ok reg) :
    ∀ kv ∈ reg, specPluginNameOk kv.1 := by
  induction cands generalizing acc with
  | nil =>
    simp only [discoverAuditorsAux] at h
    injection h with h2
    subst h2
    exact hacc
  | cons item rest ih =>
    cases hn : item.name with
    | none => simp [discoverAuditorsAux, hn] at h
    | some nm =>
      by_cases h1 : pyLower nm = "all"
      · simp [discoverAuditorsAux, hn, h1] at h
      · cases hb : (!(pyIsAlnum nm) || !(pyIsLower nm)) with
        | true => simp [discoverAuditorsAux, hn, h1, hb] at h
        | false =>
          simp only [Bool.or_eq_false_iff, Bool.not_eq_false'] at hb
          simp only [discoverAuditorsAux, hn, h1, if_false,
            hb.1, hb.2, Bool.not_true, Bool.or_self, Bool.false_eq_true] at h
          refine ih (updateAssoc acc nm item) ?_ h
          intro kv hkv
          rcases mem_updateAssoc acc nm item kv hkv with hk | hmem
          · rw [hk]; exact name_checks_imply_spec nm h1 hb.1 hb.2
          · exact hacc kv hmem

/-- A candidate violating the plugin-name constraint anywhere in the
candidate list makes auditor discovery end in an error (so no registry
value is produced at all). -/
theorem discoverAuditorsAux_violating (cands : List CandidateClass)
    (acc : List (String × CandidateClass))
    (h : ∃ c ∈ cands, violatesNameConstraint c) :
    ∃ e, discoverAuditorsAux cands acc = Except.error e := by
  induction cands generalizing acc with
  | nil => simp at h
  | cons item rest ih =>
    cases hn : item.name with
    | none =>
      exact ⟨PyError.auditor (mkAuditorError
        ("Auditor class " ++ item.className ++ " must define a name class attribute") none),
        by simp [discoverAuditorsAux, hn]⟩
    | some nm =>
      by_cases h1 : pyLower nm = "all"
      · exact ⟨PyError.auditor (mkAuditorError
          ("Auditor class " ++ item.className ++
            " cannot use all as its name - this is a reserved keyword") none),
          by simp [discoverAuditorsAux, hn, h1]⟩
      · cases hb : (!(pyIsAlnum nm) || !(pyIsLower nm)) with
        | true =>
          exact ⟨PyError.auditor (mkAuditorError
            ("Auditor class " ++ item.className ++
              " must have a name that contains only lowercase letters (a-z) and numbers (0-9)")
            none),
            by simp [discoverAuditorsAux, hn, h1, hb]⟩
        | false =>
          simp only [Bool.or_eq_false_iff, Bool.not_eq_false'] at hb
          have hval : ¬ violatesNameConstraint item := by
            intro hviol
            rcases hviol with hnone | ⟨nm2, hnm2, hnot⟩
            · rw [hn] at hnone; cases hnone
            · rw [hn] at hnm2
              injection hnm2 with heq
              subst heq
              exact hnot (name_checks_imply_spec nm h1 hb.1 hb.2)
          rcases h with ⟨c, hc, hcviol⟩
          rcases List.mem_cons.mp hc with hceq | hcrest
          · subst hceq; exact absurd hcviol hval
          · rcases ih (updateAssoc acc nm item) ⟨c, hcrest, hcviol⟩ with ⟨e, he⟩
            refine ⟨e, ?_⟩
            simp only [discoverAuditorsAux, hn, h1, if_false,
              hb.1, hb.2, Bool.not_true, Bool.or_self, Bool.false_eq_true]
            exact he

/-- The formatter twin of discoverAuditorsAux_ok_keys. -/
theorem discoverFormattersAux_ok_keys (cands : List CandidateClass)
    (acc reg : List (String × CandidateClass))
    (hacc : ∀ kv ∈ acc, specPluginNameOk kv.1)
    (h : discoverFormattersAux cands acc = Except.ok reg) :
    ∀ kv ∈ reg, specPluginNameOk kv.1 := by
  induction cands generalizing acc with
  | nil =>
    simp only [discoverFormattersAux] at h
    injection h with h2
    subst h2
    exact hacc
  | cons item rest ih =>
    cases hn : item.name with
    | none => simp [discoverFormattersAux, hn] at h
    | some nm =>
      by_cases h1 : pyLower nm = "all"
      · simp [discoverFormattersAux, hn, h1] at h
      · cases hb : (!(pyIsAlnum nm) || !(pyIsLower nm)) with
        | true => simp [discoverFormattersAux, hn, h1, hb] at h
        | false =>
          simp only [Bool.or_eq_false_iff, Bool.not_eq_false'] at hb
          simp only [discoverFormattersAux, hn, h1, if_false,
            hb.1, hb.2, Bool.not_true, Bool.or_self, Bool.false_eq_true] at h
          refine ih (updateAssoc acc nm item) ?_ h
          intro kv hkv
          rcases mem_updateAssoc acc nm item kv hkv with hk | hmem
          · rw [hk]; exact name_checks_imply_spec nm h1 hb.1 hb.2
          · exact hacc kv hmem

/-- The formatter twin of discoverAuditorsAux_violating. -/
theorem discoverFormattersAux_violating (cands : List CandidateClass)
    (acc : List (String × CandidateClass))
    (h : ∃ c ∈ cands, violatesNameConstraint c) :
    ∃ e, discoverFormattersAux cands acc = Except.error e := by
  induction cands generalizing acc with
  | nil => simp at h
  | cons item rest ih =>
    cases hn : item.name with
    | none =>
      exact ⟨PyError.formatter (mkFormatterError
        ("Formatter class " ++ item.className ++ " must define a name class attribute") none),
        by simp [discoverFormattersAux, hn]⟩
    | some nm =>
      by_cases h1 : pyLower nm = "all"
      · exact ⟨PyError.formatter (mkFormatterError
          ("Formatter class " ++ item.className ++
            " cannot use all as its name - this is a reserved keyword") none),
          by simp [discoverFormattersAux, hn, h1]⟩
      · cases hb : (!(pyIsAlnum nm) || !(pyIsLower nm)) with
        | true =>
          exact ⟨PyError.formatter (mkFormatterError
            ("Formatter class " ++ item.className ++
              " must have a name that contains only lowercase letters (a-z) and numbers (0-9)")
            none),
            by simp [discoverFormattersAux, hn, h1, hb]⟩
        | false =>
          simp only [Bool.or_eq_false_iff, Bool.not_eq_false'] at hb
          have hval : ¬ violatesNameConstraint item := by
            intro hviol
            rcases hviol with hnone | ⟨nm2, hnm2, hnot⟩
            · rw [hn] at hnone; cases hnone
            · rw [hn] at hnm2
              injection hnm2 with heq
              subst heq
              exact hnot (name_checks_imply_spec nm h1 hb.1 hb.2)
          rcases h with ⟨c, hc, hcviol⟩
          rcases List.mem_cons.mp hc with hceq | hcrest
          · subst hceq; exact absurd hcviol hval
          · rcases ih (updateAssoc acc nm item) ⟨c, hcrest, hcviol⟩ with ⟨e, he⟩
            refine ⟨e, ?_⟩
            simp only [discoverFormattersAux, hn, h1, if_false,
              hb.1, hb.2, Bool.not_true, Bool.or_self, Bool.false_eq_true]
            exact he

/-- C5: every key of a successfully built registry (auditors or
formatters) is non-empty, consists only of lowercase ASCII letters and
digits, and is never the reserved word all; and a candidate violating the
constraint (missing name, reserved name, disallowed characters) makes
discovery fail with an error, so the registry exposes no plugin at all.
Names are modelled as ASCII strings. -/
theorem c5_registry_name_invariant :
    (∀ (cands : List CandidateClass) (reg : List (String × CandidateClass)),
       discover_auditors cands = Except.ok reg → ∀ kv ∈ reg, specPluginNameOk kv.1) ∧
    (∀ cands : List CandidateClass, (∃ c ∈ cands, violatesNameConstraint c) →
       ∃ e, discover_auditors cands = Except.error e) ∧
    (∀ (cands : List CandidateClass) (reg : List (String × CandidateClass)),
       discover_formatters cands = Except.ok reg → ∀ kv ∈ reg, specPluginNameOk kv.1) ∧
    (∀ cands : List CandidateClass, (∃ c ∈ cands, violatesNameConstraint c) →
       ∃ e, discover_formatters cands = Except.error e) := by
  refine ⟨?_, ?_, ?_, ?_⟩
  · intro cands reg h
    exact discoverAuditorsAux_ok_keys cands [] reg (by simp) h
  · intro cands h
    exact discoverAuditorsAux_violating cands [] h
  · intro cands reg h
    exact discoverFormattersAux_ok_keys cands [] reg (by simp) h
  · intro cands h
    exact discoverFormattersAux_violating cands [] h

/-- Witness for C5: the flake8 candidate registers with a conforming name,
and a candidate named ALL makes discovery fail. -/
theorem c5_registry_name_invariant_witness :
    specPluginNameOk "flake8" ∧
    (∃ e, discover_auditors [CandidateClass.mk "BadAuditor" (some "ALL")] =
      Except.error e) :=
  ⟨c5_registry_name_invariant.1 [CandidateClass.mk "FlakeEightAuditor" (some "flake8")]
      [("flake8", CandidateClass.mk "FlakeEightAuditor" (some "flake8"))] rfl
      ("flake8", CandidateClass.mk "FlakeEightAuditor" (some "flake8")) (by decide),
   c5_registry_name_invariant.2.1 [CandidateClass.mk "BadAuditor" (some "ALL")]
      ⟨CandidateClass.mk "BadAuditor" (some "ALL"), by decide, Or.inr ⟨"ALL", rfl,
        fun hspec => by
          rcases hspec with ⟨-, -, hchars⟩
          rcases hchars (Char.ofNat 65) (by decide) with hc | hc
          · exact absurd hc (by decide)
          · exact absurd hc (by decide)⟩⟩⟩

end RecipesAudit
